import Mathlib

/-!
Verification of the ERA5 retrieval orchestration (TopoPyScale/fetch_era5.py).

The Python module is shallowly embedded below:
* calendar dates are triples of naturals; `date_range_M` models
  `pd.date_range(start, end, freq='M')` (the month-end dates lying in the
  inclusive range); `date_range_D` models `pd.date_range(start, end, freq='D')`
  (consecutive days of the inclusive range);
* `retrieve_era5` models the planning / existence-filter / confirmation-gate
  logic of the function of the same name: the filesystem is a predicate on
  paths, the interactive answer is a string argument, and the outcome is a
  trace recording the plan, the paths whose existence was consulted, whether
  the prompt was shown, the descriptors handed to the thread pool, and the
  error (`sys.exit` / uncaught exception) if any;
* `eraCat5d` models the NCO merge wrapper: the directory listing is a list of
  paths and the outcome is the list of shell commands it would issue (or the
  error raised on an empty glob);
* `retrieve_era5_tpmm` models the monthly-means retrieval: it unconditionally
  produces the single CDS request dictionary of the source.
-/

/-- Gregorian leap-year test (as used by pandas / datetime). -/
def isLeap (y : Nat) : Bool :=
  y % 4 == 0 && (y % 100 != 0 || y % 400 == 0)

/-- Number of days of month `m` (1..12) of year `y`. -/
def monthLength (y m : Nat) : Nat :=
  if m == 2 then (if isLeap y then 29 else 28)
  else if m == 4 || m == 6 || m == 9 || m == 11 then 30
  else 31

/-- A calendar date (year, month, day). -/
structure Date where
  y : Nat
  m : Nat
  d : Nat
deriving DecidableEq, Repr

/-- A date is valid when the month is 1..12 and the day fits the month. -/
def Date.Valid (x : Date) : Prop :=
  1 ≤ x.m ∧ x.m ≤ 12 ∧ 1 ≤ x.d ∧ x.d ≤ monthLength x.y x.m

instance (x : Date) : Decidable x.Valid := by
  unfold Date.Valid; infer_instance

/-- Lexicographic order on dates (the calendar order). -/
def dateLeProp (a b : Date) : Prop :=
  a.y < b.y ∨ (a.y = b.y ∧ (a.m < b.m ∨ (a.m = b.m ∧ a.d ≤ b.d)))

instance (a b : Date) : Decidable (dateLeProp a b) := by
  unfold dateLeProp; infer_instance

/-- Boolean form of the calendar order. -/
def dateLE (a b : Date) : Bool := decide (dateLeProp a b)

/-- The last day of month `m` of year `y`. -/
def monthEnd (y m : Nat) : Date := ⟨y, m, monthLength y m⟩

/-- Month-end date of the month with serial index `i` (year = i / 12,
month = i % 12 + 1). -/
def monthIdxDate (i : Nat) : Date := monthEnd (i / 12) (i % 12 + 1)

/-- Model of `pd.date_range(startDate, endDate, freq='M')`: the month-end
dates lying in the inclusive range, in chronological order. -/
def date_range_M (s e : Date) : List Date :=
  ((List.range (e.y * 12 + (e.m - 1) + 1 - (s.y * 12 + (s.m - 1)))).map
      (fun i => monthIdxDate (s.y * 12 + (s.m - 1) + i))).filter
    (fun dt => dateLE s dt && dateLE dt e)

/-- Decimal digit characters of `n` (auxiliary, fuel-driven). -/
def toDecAux : Nat → Nat → List Char
  | 0, _ => []
  | fuel + 1, n =>
      if n = 0 then [] else toDecAux fuel (n / 10) ++ [Nat.digitChar (n % 10)]

/-- Decimal digit characters of `n` (no leading zeros, `0` gives "0"). -/
def toDec (n : Nat) : List Char :=
  if n = 0 then ['0'] else toDecAux n n

/-- Left-pad a digit string with zeros to width `w` (printf %0wd). -/
def padZeros (w : Nat) (l : List Char) : List Char :=
  List.replicate (w - l.length) '0' ++ l

/-- Model of the Python format `"%04d%02d" % (y, m)`. -/
def fmtYM (y m : Nat) : String :=
  String.mk (padZeros 4 (toDec y) ++ padZeros 2 (toDec m))

/-- Value of a decimal digit string (proof-side inverse of the formatter). -/
def decToNat (l : List Char) : Nat :=
  l.foldl (fun acc c => 10 * acc + (c.toNat - 48)) 0

/-- The 24 hourly marks (value of `time_step_dict` at key 1). -/
def hourly24 : List String :=
  ["00:00", "01:00", "02:00", "03:00", "04:00", "05:00",
   "06:00", "07:00", "08:00", "09:00", "10:00", "11:00",
   "12:00", "13:00", "14:00", "15:00", "16:00", "17:00",
   "18:00", "19:00", "20:00", "21:00", "22:00", "23:00"]

/-- The 8 three-hourly marks (value of `time_step_dict` at keys 3 and 6). -/
def threeHourly8 : List String :=
  ["00:00", "03:00", "06:00", "09:00", "12:00", "15:00", "18:00", "21:00"]

/-- Model of `time_step_dict.get(step)`: `none` for any key other than
1, 3, 6 (Python `dict.get` returns `None`, it does not raise). -/
def time_step_dict (step : Nat) : Option (List String) :=
  if step = 1 then some hourly24
  else if step = 3 then some threeHourly8
  else if step = 6 then some threeHourly8
  else none

/-- One row of the request dataframe built by `retrieve_era5`.
`plevels = none` means the `plevels` column is absent (surf branch);
`plevels = some v` means the column holds the Python value `v` of the
`plevels` argument (which itself may be `None`, i.e. the inner `none`). -/
structure Descriptor where
  year : Nat
  month : Nat
  target_file : String
  plevels : Option (Option (List Nat))
  file_exist : Bool
  step : Nat
  time_steps : Option (List String)
  bbox : String
  product_type : String
deriving DecidableEq, Repr

/-- The ways `retrieve_era5` terminates abnormally: `sys.exit` on a bad
`surf_plev`, the uncaught `KeyError` of `df.dates[0]` on an empty plan, and
`sys.exit` when the user declines the download. -/
inductive Err where
  | configError (msg : String)
  | indexError
  | missingDeclined (msg : String)
deriving DecidableEq, Repr

/-- Observable outcome of a `retrieve_era5` run: the plan, the target paths
whose existence was checked (in order), whether the confirmation prompt was
shown, the descriptors dispatched to the download pool, and the terminating
error, if any. -/
structure RunTrace where
  plan : List Descriptor
  checked : List String
  prompted : Bool
  dispatched : List Descriptor
  error : Option Err
deriving Repr

/-- Model of `str.lower()` restricted to ASCII (all the program compares
against is "y"). -/
def lowerChar (c : Char) : Char :=
  if 65 ≤ c.toNat ∧ c.toNat ≤ 90 then Char.ofNat (c.toNat + 32) else c

/-- Model of `ans.lower()`. -/
def lowerStr (s : String) : String := String.mk (s.data.map lowerChar)

/-- The bounding-box string `str(latN)+"/"+str(lonW)+"/"+str(latS)+"/"+str(lonE)`. -/
def bboxStr (latN latS lonE lonW : String) : String :=
  latN ++ "/" ++ lonW ++ "/" ++ latS ++ "/" ++ lonE

/-- The dataframe row built for one month-end date in the `surf` branch. -/
def mkSurfDescriptor (eraDir : String) (step : Nat) (bbox product : String)
    (fs : String → Bool) (dt : Date) : Descriptor :=
  let target := eraDir ++ "SURF_" ++ fmtYM dt.y dt.m ++ ".nc"
  { year := dt.y, month := dt.m, target_file := target, plevels := none,
    file_exist := fs target, step := step, time_steps := time_step_dict step,
    bbox := bbox, product_type := product }

/-- The dataframe row built for one month-end date in the `plev` branch
(the `plevels` argument is attached as-is to every row). -/
def mkPlevDescriptor (eraDir : String) (step : Nat) (bbox product : String)
    (fs : String → Bool) (plevelsArg : Option (List Nat)) (dt : Date) : Descriptor :=
  let target := eraDir ++ "PLEV_" ++ fmtYM dt.y dt.m ++ ".nc"
  { year := dt.y, month := dt.m, target_file := target, plevels := some plevelsArg,
    file_exist := fs target, step := step, time_steps := time_step_dict step,
    bbox := bbox, product_type := product }

/-- The `sys.exit` diagnostic of the declined-download branch. -/
def missingMsg : String :=
  "ERROR: Some forcing files are missing given the date range provided\n ---> or implement a method to modify start/end date of project to file available"

/-- Lines 68-117 of the source: annotate existence, print the start date
(`df.dates[0]`, an uncaught KeyError on an empty frame), and run the
confirmation gate over the pending rows. -/
def runGate (plan : List Descriptor) (dates : List Date) (ans : String) : RunTrace :=
  if dates.isEmpty then
    { plan := plan, checked := plan.map (fun d => d.target_file), prompted := false,
      dispatched := [], error := some Err.indexError }
  else if (plan.filter (fun d => !d.file_exist)).isEmpty then
    { plan := plan, checked := plan.map (fun d => d.target_file), prompted := false,
      dispatched := [], error := none }
  else if lowerStr ans == "y" || ans == "1" then
    { plan := plan, checked := plan.map (fun d => d.target_file), prompted := true,
      dispatched := plan.filter (fun d => !d.file_exist), error := none }
  else
    { plan := plan, checked := plan.map (fun d => d.target_file), prompted := true,
      dispatched := [], error := some (Err.missingDeclined missingMsg) }

/-- Model of `retrieve_era5(product, startDate, endDate, eraDir, latN, latS,
lonE, lonW, step, num_threads, surf_plev, plevels)`.  The filesystem is the
predicate `fs`, the interactive answer is `ans`. -/
def retrieve_era5 (product : String) (startDate endDate : Date) (eraDir : String)
    (latN latS lonE lonW : String) (step : Nat) (surf_plev : String)
    (plevels : Option (List Nat)) (fs : String → Bool) (ans : String) : RunTrace :=
  if surf_plev = "surf" then
    runGate
      ((date_range_M startDate endDate).map
        (mkSurfDescriptor eraDir step (bboxStr latN latS lonE lonW) product fs))
      (date_range_M startDate endDate) ans
  else if surf_plev = "plev" then
    runGate
      ((date_range_M startDate endDate).map
        (mkPlevDescriptor eraDir step (bboxStr latN latS lonE lonW) product fs plevels))
      (date_range_M startDate endDate) ans
  else
    { plan := [], checked := [], prompted := false, dispatched := [],
      error := some (Err.configError "ERROR: surf_plev can only be surf or plev") }

/-- Code-point comparison of strings (Python string `<=`, used by
`list.sort()`). -/
def charListLe : List Char → List Char → Bool
  | [], _ => true
  | _ :: _, [] => false
  | a :: as, b :: bs => if a < b then true else if b < a then false else charListLe as bs

/-- Ordered insertion for the string sort. -/
def insertStr (x : String) : List String → List String
  | [] => [x]
  | y :: ys => if charListLe x.data y.data then x :: y :: ys else y :: insertStr x ys

/-- Model of Python `lst.sort()` on strings. -/
def sortStrings (l : List String) : List String := List.foldr insertStr [] l

/-- Failure of the merge wrapper (IndexError on `lst[0]` of an empty glob). -/
inductive MergeErr where
  | mergeFailure
deriving DecidableEq, Repr

/-- Model of `eraCat5d(wd, grepStr)`.  `files` is the directory contents seen
by `glob.glob(wd + grepStr + '*')` (the paths matching that pattern are those
starting with `wd ++ grepStr`); the result is the list of shell commands the
function issues, or the error it raises when the glob is empty. -/
def eraCat5d (wd grepStr : String) (files : List String) :
    Except MergeErr (List String) :=
  let lst := sortStrings (files.filter (fun f => (wd ++ grepStr).data.isPrefixOf f.data))
  match lst with
  | [] => Except.error MergeErr.mergeFailure
  | firstfile :: _ =>
      Except.ok
        ["ncks -O --mk_rec_dmn time " ++ firstfile ++ " " ++ firstfile,
         "ncrcat " ++ grepStr ++ "*" ++ " " ++ grepStr ++ ".nc"]

/-- Day successor of a date. -/
def nextDay (x : Date) : Date :=
  if x.d < monthLength x.y x.m then ⟨x.y, x.m, x.d + 1⟩
  else if x.m < 12 then ⟨x.y, x.m + 1, 1⟩
  else ⟨x.y + 1, 1, 1⟩

/-- Days of year `y` strictly before month `m` (1-based; `m = 13` gives the
length of the year). -/
def daysBeforeMonth (y : Nat) : Nat → Nat
  | 0 => 0
  | 1 => 0
  | k + 2 => daysBeforeMonth y (k + 1) + monthLength y (k + 1)

/-- Number of leap years strictly below `y` (closed form: multiples of 4
below `y`, minus multiples of 100, plus multiples of 400; the year 0 of the
proleptic calendar counts). -/
def numLeapsBelow (y : Nat) : Nat :=
  (y + 3) / 4 - (y + 99) / 100 + (y + 399) / 400

/-- Ordinal day number of a date (days since the proleptic origin). -/
def ord (x : Date) : Nat :=
  365 * x.y + numLeapsBelow x.y + daysBeforeMonth x.y x.m + (x.d - 1)

/-- Day-by-day enumeration, driven by fuel. -/
def dailyGo (e : Date) : Nat → Date → List Date
  | 0, _ => []
  | fuel + 1, cur =>
      if dateLE cur e then cur :: dailyGo e fuel (nextDay cur) else []

/-- Model of `pd.date_range(start, end, freq='D')`: the consecutive days of
the inclusive range. -/
def date_range_D (s e : Date) : List Date :=
  dailyGo e (ord e + 1 - ord s) s

/-- Model of `relativedelta(months=-1)`: previous month, day clamped. -/
def subOneMonth (x : Date) : Date :=
  if x.m = 1 then ⟨x.y - 1, 12, min x.d (monthLength (x.y - 1) 12)⟩
  else ⟨x.y, x.m - 1, min x.d (monthLength x.y (x.m - 1))⟩

/-- Model of `relativedelta(months=+1)`: next month, day clamped. -/
def addOneMonth (x : Date) : Date :=
  if x.m = 12 then ⟨x.y + 1, 1, min x.d (monthLength (x.y + 1) 1)⟩
  else ⟨x.y, x.m + 1, min x.d (monthLength x.y (x.m + 1))⟩

/-- Ordered duplicate-dropping insertion (for `sorted(set(...))`). -/
def insertSD (x : Nat) : List Nat → List Nat
  | [] => [x]
  | y :: ys => if x < y then x :: y :: ys else if x = y then y :: ys else y :: insertSD x ys

/-- Model of Python `list(sorted(set(l)))`. -/
def sortDedup (l : List Nat) : List Nat := List.foldr insertSD [] l

/-- The single CDS request issued by `retrieve_era5_tpmm`. -/
structure TpmmRequest where
  product_type : String
  area : String
  variableName : String
  years : List Nat
  months : List String
  time : String
  format : String
  target : String
deriving DecidableEq, Repr

/-- Model of `retrieve_era5_tpmm(startDate, endDate, eraDir, latN, latS,
lonE, lonW)`: expand the range by one month on each side, list the days of
the expanded range, collect their years as `sorted(set(...))`, and issue one
unconditional request (the function consults no filesystem state and asks no
confirmation; its only output is this request). -/
def retrieve_era5_tpmm (startDate endDate : Date) (eraDir : String)
    (latN latS lonE lonW : String) : TpmmRequest :=
  let start := subOneMonth startDate
  let stop := addOneMonth endDate
  let dateList := date_range_D start stop
  let target := eraDir ++ "tpmm.nc"
  let bbox := bboxStr latN latS lonE lonW
  let yearVec := dateList.map (fun dt => dt.y)
  let myyears := sortDedup yearVec
  { product_type := "reanalysis-monthly-means-of-daily-means",
    area := bbox,
    variableName := "total_precipitation",
    years := myyears,
    months := ["01", "02", "03", "04", "05", "06",
               "07", "08", "09", "10", "11", "12"],
    time := "00:00",
    format := "netcdf",
    target := target }

/-! ### Generic facts about the embedded definitions -/

theorem monthLength_ge (y m : Nat) : 28 ≤ monthLength y m := by
  unfold monthLength
  split
  · split <;> omega
  · split <;> omega

theorem monthLength_le (y m : Nat) : monthLength y m ≤ 31 := by
  unfold monthLength
  split
  · split <;> omega
  · split <;> omega

theorem monthIdxDate_spec (i : Nat) :
    (monthIdxDate i).y * 12 + (monthIdxDate i).m = i + 1 ∧
      1 ≤ (monthIdxDate i).m ∧ (monthIdxDate i).m ≤ 12 := by
  unfold monthIdxDate monthEnd
  refine ⟨?_, ?_, ?_⟩ <;> simp <;> omega

theorem countP_range_single (k c : Nat) :
    (List.range k).countP (fun i => i == c) = if c < k then 1 else 0 := by
  induction k with
  | zero => simp
  | succ k ih =>
      rw [List.range_succ, List.countP_append, ih]
      have hk : List.countP (fun i => i == c) [k] = if k = c then 1 else 0 := by
        simp [List.countP_cons, beq_iff_eq]
      rw [hk]
      split_ifs <;> omega

theorem runGate_plan (plan : List Descriptor) (dates : List Date) (ans : String) :
    (runGate plan dates ans).plan = plan := by
  unfold runGate
  split_ifs <;> rfl

theorem runGate_error_cases (plan : List Descriptor) (dates : List Date) (ans : String) :
    (runGate plan dates ans).error = some Err.indexError ∨
      (runGate plan dates ans).error = none ∨
      (runGate plan dates ans).error = some (Err.missingDeclined missingMsg) := by
  unfold runGate
  split_ifs <;> simp

theorem retrieve_plan_eq (product : String) (s e : Date) (eraDir latN latS lonE lonW : String)
    (step : Nat) (surf_plev : String) (plevels : Option (List Nat)) (fs : String → Bool)
    (ans : String) :
    (retrieve_era5 product s e eraDir latN latS lonE lonW step surf_plev plevels fs ans).plan =
      if surf_plev = "surf" then
        (date_range_M s e).map
          (mkSurfDescriptor eraDir step (bboxStr latN latS lonE lonW) product fs)
      else if surf_plev = "plev" then
        (date_range_M s e).map
          (mkPlevDescriptor eraDir step (bboxStr latN latS lonE lonW) product fs plevels)
      else [] := by
  unfold retrieve_era5
  split_ifs <;> simp [runGate_plan]

/-! ### C7: invalid kind aborts before anything else -/

/-- C7: for every call with `surf_plev` neither "surf" nor "plev",
`retrieve_era5` terminates with the configuration error (the `sys.exit` of
line 67, a non-zero exit), with no filesystem existence check, no
confirmation prompt and no dispatch to the download pool. -/
theorem retrieve_era5_bad_kind_aborts (product : String) (s e : Date)
    (eraDir latN latS lonE lonW : String) (step : Nat) (surf_plev : String)
    (plevels : Option (List Nat)) (fs : String → Bool) (ans : String)
    (h1 : surf_plev ≠ "surf") (h2 : surf_plev ≠ "plev") :
    retrieve_era5 product s e eraDir latN latS lonE lonW step surf_plev plevels fs ans =
      { plan := [], checked := [], prompted := false, dispatched := [],
        error := some (Err.configError "ERROR: surf_plev can only be surf or plev") } := by
  unfold retrieve_era5
  rw [if_neg h1, if_neg h2]

/-- Witness for C7 at a concrete invalid kind. -/
theorem retrieve_era5_bad_kind_aborts_witness :
    ("both" ≠ "surf") ∧ ("both" ≠ "plev") ∧
      retrieve_era5 "reanalysis" ⟨2020, 1, 1⟩ ⟨2020, 3, 31⟩ "d/" "60" "40" "10" "0"
          6 "both" none (fun _ => false) "y" =
        { plan := [], checked := [], prompted := false, dispatched := [],
          error := some (Err.configError "ERROR: surf_plev can only be surf or plev") } :=
  ⟨by decide, by decide,
    retrieve_era5_bad_kind_aborts "reanalysis" ⟨2020, 1, 1⟩ ⟨2020, 3, 31⟩ "d/" "60" "40"
      "10" "0" 6 "both" none (fun _ => false) "y" (by decide) (by decide)⟩

/-! ### C10: a range holding no month-end gives an empty plan and an
uncaught index error -/

/-- C10: when no month-end date lies in the inclusive range, the generated
plan is empty and the run stops with the uncaught indexing error of
`df.dates[0]` (line 75), before any filesystem existence check, before the
confirmation prompt, and with nothing dispatched. -/
theorem retrieve_era5_no_month_end_index_error (product : String) (s e : Date)
    (eraDir latN latS lonE lonW : String) (step : Nat) (surf_plev : String)
    (plevels : Option (List Nat)) (fs : String → Bool) (ans : String)
    (hkind : surf_plev = "surf" ∨ surf_plev = "plev")
    (hno : ∀ y m, ¬(dateLeProp s (monthEnd y m) ∧ dateLeProp (monthEnd y m) e)) :
    (retrieve_era5 product s e eraDir latN latS lonE lonW step surf_plev plevels fs ans).plan
        = [] ∧
      (retrieve_era5 product s e eraDir latN latS lonE lonW step surf_plev plevels fs
          ans).checked = [] ∧
      (retrieve_era5 product s e eraDir latN latS lonE lonW step surf_plev plevels fs
          ans).prompted = false ∧
      (retrieve_era5 product s e eraDir latN latS lonE lonW step surf_plev plevels fs
          ans).dispatched = [] ∧
      (retrieve_era5 product s e eraDir latN latS lonE lonW step surf_plev plevels fs
          ans).error = some Err.indexError := by
  have hd : date_range_M s e = [] := by
    unfold date_range_M
    rw [List.filter_eq_nil_iff]
    intro dt hmem
    simp only [List.mem_map] at hmem
    obtain ⟨i, _, hi⟩ := hmem
    subst hi
    simp only [dateLE, Bool.and_eq_true, decide_eq_true_eq, not_and]
    intro ha hb
    exact hno _ _ ⟨ha, hb⟩
  rcases hkind with h | h <;> subst h <;>
    simp [retrieve_era5, hd, runGate]

/-- Witness for C10 at the concrete range 2020-01-05 .. 2020-01-20 (the
span contains no month-end). -/
theorem retrieve_era5_no_month_end_index_error_witness :
    (retrieve_era5 "reanalysis" ⟨2020, 1, 5⟩ ⟨2020, 1, 20⟩ "d/" "60" "40" "10" "0"
        6 "surf" none (fun _ => false) "y").plan = [] ∧
      (retrieve_era5 "reanalysis" ⟨2020, 1, 5⟩ ⟨2020, 1, 20⟩ "d/" "60" "40" "10" "0"
        6 "surf" none (fun _ => false) "y").checked = [] ∧
      (retrieve_era5 "reanalysis" ⟨2020, 1, 5⟩ ⟨2020, 1, 20⟩ "d/" "60" "40" "10" "0"
        6 "surf" none (fun _ => false) "y").prompted = false ∧
      (retrieve_era5 "reanalysis" ⟨2020, 1, 5⟩ ⟨2020, 1, 20⟩ "d/" "60" "40" "10" "0"
        6 "surf" none (fun _ => false) "y").dispatched = [] ∧
      (retrieve_era5 "reanalysis" ⟨2020, 1, 5⟩ ⟨2020, 1, 20⟩ "d/" "60" "40" "10" "0"
        6 "surf" none (fun _ => false) "y").error = some Err.indexError :=
  retrieve_era5_no_month_end_index_error "reanalysis" ⟨2020, 1, 5⟩ ⟨2020, 1, 20⟩ "d/"
    "60" "40" "10" "0" 6 "surf" none (fun _ => false) "y" (Or.inl rfl)
    (by
      intro y m hc
      rcases hc with ⟨h1, h2⟩
      have h28 := monthLength_ge y m
      simp only [dateLeProp, monthEnd] at h1 h2
      omega)

/-! ### C2: the confirmation gate -/

/-- Shared shape lemma: full behaviour of the gate of lines 89-117. -/
theorem runGate_spec (plan : List Descriptor) (dates : List Date) (ans : String)
    (h : dates = [] → plan = []) :
    ((runGate plan dates ans).prompted = true ↔
        plan.filter (fun x => !x.file_exist) ≠ []) ∧
      ((runGate plan dates ans).dispatched ≠ [] ↔
        plan.filter (fun x => !x.file_exist) ≠ [] ∧ (lowerStr ans = "y" ∨ ans = "1")) ∧
      (plan.filter (fun x => !x.file_exist) ≠ [] → (lowerStr ans = "y" ∨ ans = "1") →
        (runGate plan dates ans).dispatched = plan.filter (fun x => !x.file_exist) ∧
          (runGate plan dates ans).error = none) ∧
      (plan.filter (fun x => !x.file_exist) ≠ [] → ¬(lowerStr ans = "y" ∨ ans = "1") →
        (runGate plan dates ans).dispatched = [] ∧
          (runGate plan dates ans).error = some (Err.missingDeclined missingMsg)) ∧
      (plan.filter (fun x => !x.file_exist) = [] →
        (runGate plan dates ans).prompted = false ∧
          (runGate plan dates ans).dispatched = []) := by
  unfold runGate
  by_cases hd : dates.isEmpty
  · have hp : plan = [] := h (List.isEmpty_iff.mp hd)
    subst hp
    simp [hd]
  · simp only [hd, if_false]
    by_cases hdl : (plan.filter (fun x => !x.file_exist)).isEmpty
    · have hnil := List.isEmpty_iff.mp hdl
      simp [hdl, hnil]
    · have hne : plan.filter (fun x => !x.file_exist) ≠ [] := by
        intro hc; rw [hc] at hdl; simp at hdl
      by_cases ha : (lowerStr ans == "y" || ans == "1") = true
      · have hap : lowerStr ans = "y" ∨ ans = "1" := by
          simpa [Bool.or_eq_true, beq_iff_eq] using ha
        simp [hdl, ha, hne, hap]
      · have hap : ¬(lowerStr ans = "y" ∨ ans = "1") := by
          simpa [Bool.or_eq_true, beq_iff_eq] using ha
        simp [hdl, ha, hne, hap]

/-- C2: the fetch pool is dispatched iff the pending set is non-empty and
the answer is affirmative ("y" after lowercasing, or exactly "1"); an empty
pending set triggers neither prompt nor pool; a non-affirmative answer on a
non-empty pending set aborts with a reported error and non-zero exit (the
`sys.exit` of line 117), dispatching nothing. -/
theorem retrieve_era5_confirmation_gate (product : String) (s e : Date)
    (eraDir latN latS lonE lonW : String) (step : Nat) (surf_plev : String)
    (plevels : Option (List Nat)) (fs : String → Bool) (ans : String)
    (hkind : surf_plev = "surf" ∨ surf_plev = "plev") :
    ((retrieve_era5 product s e eraDir latN latS lonE lonW step surf_plev plevels fs
          ans).prompted = true ↔
        (retrieve_era5 product s e eraDir latN latS lonE lonW step surf_plev plevels fs
          ans).plan.filter (fun x => !x.file_exist) ≠ []) ∧
      ((retrieve_era5 product s e eraDir latN latS lonE lonW step surf_plev plevels fs
          ans).dispatched ≠ [] ↔
        (retrieve_era5 product s e eraDir latN latS lonE lonW step surf_plev plevels fs
            ans).plan.filter (fun x => !x.file_exist) ≠ [] ∧
          (lowerStr ans = "y" ∨ ans = "1")) ∧
      ((retrieve_era5 product s e eraDir latN latS lonE lonW step surf_plev plevels fs
            ans).plan.filter (fun x => !x.file_exist) ≠ [] →
        (lowerStr ans = "y" ∨ ans = "1") →
        (retrieve_era5 product s e eraDir latN latS lonE lonW step surf_plev plevels fs
            ans).dispatched =
          (retrieve_era5 product s e eraDir latN latS lonE lonW step surf_plev plevels fs
            ans).plan.filter (fun x => !x.file_exist) ∧
          (retrieve_era5 product s e eraDir latN latS lonE lonW step surf_plev plevels fs
            ans).error = none) ∧
      ((retrieve_era5 product s e eraDir latN latS lonE lonW step surf_plev plevels fs
            ans).plan.filter (fun x => !x.file_exist) ≠ [] →
        ¬(lowerStr ans = "y" ∨ ans = "1") →
        (retrieve_era5 product s e eraDir latN latS lonE lonW step surf_plev plevels fs
            ans).dispatched = [] ∧
          (retrieve_era5 product s e eraDir latN latS lonE lonW step surf_plev plevels fs
            ans).error = some (Err.missingDeclined missingMsg)) ∧
      ((retrieve_era5 product s e eraDir latN latS lonE lonW step surf_plev plevels fs
            ans).plan.filter (fun x => !x.file_exist) = [] →
        (retrieve_era5 product s e eraDir latN latS lonE lonW step surf_plev plevels fs
            ans).prompted = false ∧
          (retrieve_era5 product s e eraDir latN latS lonE lonW step surf_plev plevels fs
            ans).dispatched = []) := by
  rcases hkind with h | h <;> subst h
  · unfold retrieve_era5
    rw [if_pos rfl, runGate_plan]
    apply runGate_spec
    intro hd
    rw [hd]
    rfl
  · unfold retrieve_era5
    rw [if_neg (by decide), if_pos rfl, runGate_plan]
    apply runGate_spec
    intro hd
    rw [hd]
    rfl

/-- Witness for C2: one pending month, affirmative answer "Y". -/
theorem retrieve_era5_confirmation_gate_witness :
    ("surf" = "surf" ∨ "surf" = "plev") ∧
      ((retrieve_era5 "reanalysis" ⟨2020, 1, 1⟩ ⟨2020, 1, 31⟩ "d/" "60" "40" "10" "0" 6
            "surf" none (fun _ => false) "Y").dispatched ≠ [] ↔
        (retrieve_era5 "reanalysis" ⟨2020, 1, 1⟩ ⟨2020, 1, 31⟩ "d/" "60" "40" "10" "0" 6
            "surf" none (fun _ => false) "Y").plan.filter (fun x => !x.file_exist) ≠ [] ∧
          (lowerStr "Y" = "y" ∨ "Y" = "1")) :=
  ⟨Or.inl rfl,
    (retrieve_era5_confirmation_gate "reanalysis" ⟨2020, 1, 1⟩ ⟨2020, 1, 31⟩ "d/" "60"
      "40" "10" "0" 6 "surf" none (fun _ => false) "Y" (Or.inl rfl)).2.1⟩

/-! ### C3 and C4: the missing validations of step and plevels -/

/-- For a valid kind the run can never end in the configuration error. -/
theorem retrieve_valid_kind_no_config (product : String) (s e : Date)
    (eraDir latN latS lonE lonW : String) (step : Nat) (surf_plev : String)
    (plevels : Option (List Nat)) (fs : String → Bool) (ans : String)
    (hkind : surf_plev = "surf" ∨ surf_plev = "plev") (msg : String) :
    (retrieve_era5 product s e eraDir latN latS lonE lonW step surf_plev plevels fs
        ans).error ≠ some (Err.configError msg) := by
  rcases hkind with h | h <;> subst h
  · unfold retrieve_era5
    rw [if_pos rfl]
    rcases runGate_error_cases
        ((date_range_M s e).map
          (mkSurfDescriptor eraDir step (bboxStr latN latS lonE lonW) product fs))
        (date_range_M s e) ans with h | h | h <;> rw [h] <;> simp
  · unfold retrieve_era5
    rw [if_neg (by decide), if_pos rfl]
    rcases runGate_error_cases
        ((date_range_M s e).map
          (mkPlevDescriptor eraDir step (bboxStr latN latS lonE lonW) product fs plevels))
        (date_range_M s e) ans with h | h | h <;> rw [h] <;> simp

/-- C3 (amended): an invalid `step` is NOT rejected: `time_step_dict.get`
silently yields `None`, every descriptor carries `time_steps = none`, and the
run proceeds without any configuration error. -/
theorem retrieve_era5_invalid_step_proceeds (product : String) (s e : Date)
    (eraDir latN latS lonE lonW : String) (step : Nat) (surf_plev : String)
    (plevels : Option (List Nat)) (fs : String → Bool) (ans : String)
    (h1 : step ≠ 1) (h3 : step ≠ 3) (h6 : step ≠ 6)
    (hkind : surf_plev = "surf" ∨ surf_plev = "plev") :
    (∀ dd ∈ (retrieve_era5 product s e eraDir latN latS lonE lonW step surf_plev plevels
        fs ans).plan, dd.time_steps = none) ∧
      ∀ msg, (retrieve_era5 product s e eraDir latN latS lonE lonW step surf_plev plevels
          fs ans).error ≠ some (Err.configError msg) := by
  refine ⟨?_, fun msg => retrieve_valid_kind_no_config product s e eraDir latN latS lonE
    lonW step surf_plev plevels fs ans hkind msg⟩
  rw [retrieve_plan_eq]
  have hts : time_step_dict step = none := by
    unfold time_step_dict
    rw [if_neg h1, if_neg h3, if_neg h6]
  rcases hkind with h | h <;> subst h
  · rw [if_pos rfl]
    intro dd hdd
    obtain ⟨dt, _, hdt⟩ := List.mem_map.mp hdd
    subst hdt
    simpa [mkSurfDescriptor] using hts
  · rw [if_neg (by decide), if_pos rfl]
    intro dd hdd
    obtain ⟨dt, _, hdt⟩ := List.mem_map.mp hdd
    subst hdt
    simpa [mkPlevDescriptor] using hts

/-- C3 counterexample: with `step = 2` the claim "fails with an input error
rather than proceeding" is false at this input: the run raises no error, the
pool is dispatched, and the single descriptor carries no time list. -/
theorem retrieve_era5_step2_no_abort_cex :
    (retrieve_era5 "reanalysis" ⟨2020, 1, 1⟩ ⟨2020, 1, 31⟩ "d/" "60" "40" "10" "0" 2
        "surf" none (fun _ => false) "y").error = none ∧
      (retrieve_era5 "reanalysis" ⟨2020, 1, 1⟩ ⟨2020, 1, 31⟩ "d/" "60" "40" "10" "0" 2
        "surf" none (fun _ => false) "y").dispatched ≠ [] ∧
      (retrieve_era5 "reanalysis" ⟨2020, 1, 1⟩ ⟨2020, 1, 31⟩ "d/" "60" "40" "10" "0" 2
        "surf" none (fun _ => false) "y").plan.map (fun dd => dd.time_steps) = [none] := by
  refine ⟨?_, ?_, ?_⟩ <;> decide

/-- C4 (amended): in the `plev` branch the `plevels` argument is attached
identically (and unvalidated) to every descriptor of the plan — also when it
is absent (`none`) — and the run raises no configuration error. -/
theorem retrieve_era5_plev_attaches_plevels (product : String) (s e : Date)
    (eraDir latN latS lonE lonW : String) (step : Nat)
    (plevels : Option (List Nat)) (fs : String → Bool) (ans : String) :
    (∀ dd ∈ (retrieve_era5 product s e eraDir latN latS lonE lonW step "plev" plevels
        fs ans).plan, dd.plevels = some plevels) ∧
      ∀ msg, (retrieve_era5 product s e eraDir latN latS lonE lonW step "plev" plevels
          fs ans).error ≠ some (Err.configError msg) := by
  refine ⟨?_, fun msg => retrieve_valid_kind_no_config product s e eraDir latN latS lonE
    lonW step "plev" plevels fs ans (Or.inr rfl) msg⟩
  rw [retrieve_plan_eq]
  rw [if_neg (by decide), if_pos rfl]
  intro dd hdd
  obtain ⟨dt, _, hdt⟩ := List.mem_map.mp hdd
  subst hdt
  rfl

/-- C4 counterexample: with `surf_plev = "plev"` and no `plevels` supplied
the claim "fails with a ConfigurationError" is false at this input: no error
is raised, the absent value is attached to the descriptor, and the pool is
dispatched. -/
theorem retrieve_era5_plev_missing_plevels_cex :
    (retrieve_era5 "reanalysis" ⟨2020, 1, 1⟩ ⟨2020, 1, 31⟩ "d/" "60" "40" "10" "0" 6
        "plev" none (fun _ => false) "y").error = none ∧
      (retrieve_era5 "reanalysis" ⟨2020, 1, 1⟩ ⟨2020, 1, 31⟩ "d/" "60" "40" "10" "0" 6
        "plev" none (fun _ => false) "y").plan.map (fun dd => dd.plevels) = [some none] ∧
      (retrieve_era5 "reanalysis" ⟨2020, 1, 1⟩ ⟨2020, 1, 31⟩ "d/" "60" "40" "10" "0" 6
        "plev" none (fun _ => false) "y").dispatched ≠ [] := by
  refine ⟨?_, ?_, ?_⟩ <;> decide

/-! ### C6: the fixed time-of-day enumerations -/

/-- C6: for a valid step, every descriptor of the plan carries exactly the
fixed list for that step: the 24 hourly marks for step 1 and the 8
three-hourly marks for steps 3 and 6. -/
theorem retrieve_era5_time_list (product : String) (s e : Date)
    (eraDir latN latS lonE lonW : String) (step : Nat) (surf_plev : String)
    (plevels : Option (List Nat)) (fs : String → Bool) (ans : String)
    (hstep : step = 1 ∨ step = 3 ∨ step = 6) :
    ∀ dd ∈ (retrieve_era5 product s e eraDir latN latS lonE lonW step surf_plev plevels
        fs ans).plan,
      dd.time_steps = some (if step = 1 then hourly24 else threeHourly8) := by
  rw [retrieve_plan_eq]
  by_cases hk1 : surf_plev = "surf"
  · rw [if_pos hk1]
    intro dd hdd
    obtain ⟨dt, _, hdt⟩ := List.mem_map.mp hdd
    subst hdt
    show time_step_dict step = some (if step = 1 then hourly24 else threeHourly8)
    rcases hstep with h | h | h <;> subst h <;> rfl
  · rw [if_neg hk1]
    by_cases hk2 : surf_plev = "plev"
    · rw [if_pos hk2]
      intro dd hdd
      obtain ⟨dt, _, hdt⟩ := List.mem_map.mp hdd
      subst hdt
      show time_step_dict step = some (if step = 1 then hourly24 else threeHourly8)
      rcases hstep with h | h | h <;> subst h <;> rfl
    · rw [if_neg hk2]
      intro dd hdd
      simp at hdd

/-- Witness for C6 at step 6 with a one-month plan. -/
theorem retrieve_era5_time_list_witness :
    ((6 : Nat) = 1 ∨ (6 : Nat) = 3 ∨ (6 : Nat) = 6) ∧
      ∀ dd ∈ (retrieve_era5 "reanalysis" ⟨2020, 1, 1⟩ ⟨2020, 1, 31⟩ "d/" "60" "40" "10"
          "0" 6 "surf" none (fun _ => false) "y").plan,
        dd.time_steps = some (if (6 : Nat) = 1 then hourly24 else threeHourly8) :=
  ⟨by decide,
    retrieve_era5_time_list "reanalysis" ⟨2020, 1, 1⟩ ⟨2020, 1, 31⟩ "d/" "60" "40" "10"
      "0" 6 "surf" none (fun _ => false) "y" (by decide)⟩

/-! ### C8 and C5: the NCO merge wrapper -/

/-- C8: when no file matches the glob, `eraCat5d` fails (the `lst[0]` of
line 233 raises on the empty sorted list) instead of completing. -/
theorem eraCat5d_empty_glob_fails (wd grepStr : String) (files : List String)
    (h : files.filter (fun f => (wd ++ grepStr).data.isPrefixOf f.data) = []) :
    eraCat5d wd grepStr files = Except.error MergeErr.mergeFailure := by
  unfold eraCat5d
  rw [h]
  rfl

/-- Witness for C8: a directory containing no matching file. -/
theorem eraCat5d_empty_glob_fails_witness :
    ["/d/other.nc"].filter (fun f => ("/d/" ++ "SURF").data.isPrefixOf f.data) = [] ∧
      eraCat5d "/d/" "SURF" ["/d/other.nc"] = Except.error MergeErr.mergeFailure :=
  ⟨by decide, eraCat5d_empty_glob_fails "/d/" "SURF" ["/d/other.nc"] (by decide)⟩

/-- C5 (code observation): on a workDir holding two matching monthly files,
the first command makes the time dimension of the lexicographically first
matching file the record dimension in place (workDir-qualified), but the
second command is `ncrcat SURF* SURF.nc` with no workDir prefix: the
concatenation globs and writes relative to the process working directory,
not workDir. -/
theorem eraCat5d_ncrcat_ignores_workdir :
    eraCat5d "/data/era/" "SURF"
        ["/data/era/SURF_202002.nc", "/data/era/SURF_202001.nc"] =
      Except.ok
        ["ncks -O --mk_rec_dmn time /data/era/SURF_202001.nc /data/era/SURF_202001.nc",
         "ncrcat SURF* SURF.nc"] := rfl

/-- Witness for C3 (amended) at step 2. -/
theorem retrieve_era5_invalid_step_proceeds_witness :
    ((2 : Nat) ≠ 1) ∧ ((2 : Nat) ≠ 3) ∧ ((2 : Nat) ≠ 6) ∧
      ("surf" = "surf" ∨ "surf" = "plev") ∧
      ((∀ dd ∈ (retrieve_era5 "reanalysis" ⟨2021, 2, 1⟩ ⟨2021, 2, 28⟩ "d/" "60" "40"
          "10" "0" 2 "surf" none (fun _ => false) "n").plan, dd.time_steps = none) ∧
        ∀ msg, (retrieve_era5 "reanalysis" ⟨2021, 2, 1⟩ ⟨2021, 2, 28⟩ "d/" "60" "40"
            "10" "0" 2 "surf" none (fun _ => false) "n").error ≠
          some (Err.configError msg)) :=
  ⟨by decide, by decide, by decide, Or.inl rfl,
    retrieve_era5_invalid_step_proceeds "reanalysis" ⟨2021, 2, 1⟩ ⟨2021, 2, 28⟩ "d/"
      "60" "40" "10" "0" 2 "surf" none (fun _ => false) "n"
      (by decide) (by decide) (by decide) (Or.inl rfl)⟩

/-! ### Decimal formatting: `"%04d%02d"` is injective on (year, month) -/

theorem decFoldl_acc (l : List Char) (acc : Nat) :
    l.foldl (fun a c => 10 * a + (c.toNat - 48)) acc =
      acc * 10 ^ l.length + l.foldl (fun a c => 10 * a + (c.toNat - 48)) 0 := by
  induction l generalizing acc with
  | nil => simp
  | cons c t ih =>
      rw [List.foldl_cons, List.foldl_cons, ih, ih (10 * 0 + (c.toNat - 48))]
      simp only [List.length_cons, pow_succ]
      ring

theorem decToNat_append (a b : List Char) :
    decToNat (a ++ b) = decToNat a * 10 ^ b.length + decToNat b := by
  unfold decToNat
  rw [List.foldl_append]
  exact decFoldl_acc b _

theorem decToNat_replicate_zeros (k : Nat) :
    decToNat (List.replicate k '0') = 0 := by
  induction k with
  | zero => rfl
  | succ k ih =>
      rw [List.replicate_succ]
      unfold decToNat at ih ⊢
      rw [List.foldl_cons]
      have h : (10 * 0 + ('0'.toNat - 48)) = 0 := by decide
      rw [h]
      exact ih

theorem decToNat_padZeros (w : Nat) (l : List Char) :
    decToNat (padZeros w l) = decToNat l := by
  unfold padZeros
  rw [decToNat_append, decToNat_replicate_zeros]
  simp

theorem digitChar_toNat (d : Nat) (h : d < 10) : (Nat.digitChar d).toNat = 48 + d := by
  interval_cases d <;> decide

theorem decToNat_toDecAux (fuel : Nat) : ∀ n, n ≤ fuel → decToNat (toDecAux fuel n) = n := by
  induction fuel with
  | zero =>
      intro n hn
      have h0 : n = 0 := by omega
      subst h0
      rfl
  | succ fuel ih =>
      intro n hn
      unfold toDecAux
      by_cases h0 : n = 0
      · subst h0
        rfl
      · rw [if_neg h0, decToNat_append, ih (n / 10) (by omega)]
        have hd : decToNat [Nat.digitChar (n % 10)] = n % 10 := by
          unfold decToNat
          rw [List.foldl_cons, List.foldl_nil]
          rw [digitChar_toNat (n % 10) (Nat.mod_lt n (by norm_num))]
          omega
        rw [hd]
        simp only [List.length_cons, List.length_nil, pow_succ, pow_zero]
        omega

theorem decToNat_toDec (n : Nat) : decToNat (toDec n) = n := by
  unfold toDec
  by_cases h : n = 0
  · subst h
    rfl
  · rw [if_neg h]
    exact decToNat_toDecAux n n le_rfl

theorem toDecAux_length (fuel : Nat) : ∀ n w, n ≤ fuel → n < 10 ^ w →
    (toDecAux fuel n).length ≤ w := by
  induction fuel with
  | zero =>
      intro n w _ _
      simp [toDecAux]
  | succ fuel ih =>
      intro n w hf hw
      unfold toDecAux
      by_cases h0 : n = 0
      · simp [h0]
      · rw [if_neg h0, List.length_append]
        simp only [List.length_cons, List.length_nil]
        cases w with
        | zero =>
            exfalso
            simp at hw
            omega
        | succ w =>
            have hlt : n < 10 ^ w * 10 := by
              rw [pow_succ] at hw
              omega
            have := ih (n / 10) w (by omega) (by omega)
            omega

theorem toDec_length_le (n w : Nat) (h1 : n < 10 ^ w) (h2 : 1 ≤ w) :
    (toDec n).length ≤ w := by
  unfold toDec
  by_cases h : n = 0
  · simp [h]
    omega
  · rw [if_neg h]
    exact toDecAux_length n n w le_rfl h1

theorem padZeros_length_of_le (w : Nat) (l : List Char) (h : l.length ≤ w) :
    (padZeros w l).length = w := by
  unfold padZeros
  rw [List.length_append, List.length_replicate]
  omega

theorem decToNat_fmtParts (y m : Nat) (hm : m < 100) :
    decToNat (padZeros 4 (toDec y) ++ padZeros 2 (toDec m)) = y * 100 + m := by
  have hm2 : m < 10 ^ 2 := by norm_num; omega
  rw [decToNat_append, decToNat_padZeros, decToNat_padZeros, decToNat_toDec,
    decToNat_toDec, padZeros_length_of_le 2 (toDec m) (toDec_length_le m 2 hm2 (by norm_num))]
  norm_num

theorem fmtYM_inj (y m z n : Nat) (hm : m < 100) (hn : n < 100)
    (h : fmtYM y m = fmtYM z n) : y = z ∧ m = n := by
  unfold fmtYM at h
  injection h with hd
  have := congrArg decToNat hd
  rw [decToNat_fmtParts y m hm, decToNat_fmtParts z n hn] at this
  omega

theorem targetFile_inj (eraDir pre : String) (y m z n : Nat) (hm : m < 100) (hn : n < 100)
    (h : eraDir ++ pre ++ fmtYM y m ++ ".nc" = eraDir ++ pre ++ fmtYM z n ++ ".nc") :
    y = z ∧ m = n := by
  apply fmtYM_inj y m z n hm hn
  have hdata := congrArg String.data h
  simp only [String.data_append] at hdata
  exact String.ext (List.append_cancel_left (List.append_cancel_right hdata))

/-! ### C1: structure of the monthly plan -/

theorem countP_congr_mine (l : List α) (p q : α → Bool) (h : ∀ a ∈ l, p a = q a) :
    l.countP p = l.countP q := by
  induction l with
  | nil => rfl
  | cons a t ih =>
      rw [List.countP_cons, List.countP_cons, h a (List.mem_cons_self a t),
        ih (fun b hb => h b (List.mem_cons_of_mem a hb))]

theorem date_range_M_pairwise (s e : Date) :
    List.Pairwise
      (fun d1 d2 : Date =>
        d1.y * 12 + d1.m < d2.y * 12 + d2.m ∧
          1 ≤ d1.m ∧ d1.m ≤ 12 ∧ 1 ≤ d2.m ∧ d2.m ≤ 12)
      (date_range_M s e) := by
  unfold date_range_M
  apply List.Pairwise.sublist (List.filter_sublist _)
  rw [List.pairwise_map]
  refine (List.pairwise_lt_range _).imp ?_
  intro i j hij
  have hi := monthIdxDate_spec (s.y * 12 + (s.m - 1) + i)
  have hj := monthIdxDate_spec (s.y * 12 + (s.m - 1) + j)
  omega

theorem date_range_M_countP (s e : Date) (hs : s.Valid) (he : e.Valid) (y m : Nat)
    (hm1 : 1 ≤ m) (hm2 : m ≤ 12) :
    (date_range_M s e).countP (fun dt => dt.y == y && dt.m == m) =
      if dateLeProp s (monthEnd y m) ∧ dateLeProp (monthEnd y m) e then 1 else 0 := by
  obtain ⟨hsm1, hsm2, hsd1, hsd2⟩ := hs
  obtain ⟨hem1, hem2, hed1, hed2⟩ := he
  unfold date_range_M
  rw [List.countP_filter, List.countP_map]
  by_cases hq : dateLeProp s (monthEnd y m) ∧ dateLeProp (monthEnd y m) e
  · rw [if_pos hq]
    obtain ⟨hq1, hq2⟩ := hq
    have hat : s.y * 12 + (s.m - 1) ≤ y * 12 + (m - 1) ∧
        y * 12 + (m - 1) ≤ e.y * 12 + (e.m - 1) := by
      unfold dateLeProp monthEnd at hq1 hq2
      simp only at hq1 hq2
      omega
    refine (countP_congr_mine _ _
      (fun i => i == y * 12 + (m - 1) - (s.y * 12 + (s.m - 1))) ?_).trans ?_
    · intro i hi
      simp only [List.mem_range] at hi
      simp only [Function.comp_apply]
      rw [Bool.eq_iff_iff]
      simp only [Bool.and_eq_true, beq_iff_eq, dateLE, decide_eq_true_eq]
      constructor
      · rintro ⟨⟨hy, hm3⟩, hle1, hle2⟩
        dsimp only [monthIdxDate, monthEnd] at hy hm3
        omega
      · intro hic
        have hit : s.y * 12 + (s.m - 1) + i = y * 12 + (m - 1) := by omega
        have h1 : (s.y * 12 + (s.m - 1) + i) / 12 = y := by omega
        have h2 : (s.y * 12 + (s.m - 1) + i) % 12 + 1 = m := by omega
        have hgi : monthIdxDate (s.y * 12 + (s.m - 1) + i) = monthEnd y m := by
          unfold monthIdxDate
          rw [h1, h2]
        rw [hgi]
        exact ⟨⟨rfl, rfl⟩, hq1, hq2⟩
    · rw [countP_range_single]
      rw [if_pos (by omega)]
  · rw [if_neg hq]
    refine List.countP_eq_zero.mpr ?_
    intro i hi hpred
    simp only [Function.comp_apply, Bool.and_eq_true, beq_iff_eq, dateLE,
      decide_eq_true_eq] at hpred
    obtain ⟨⟨hy, hm3⟩, hle1, hle2⟩ := hpred
    apply hq
    have hgi : monthIdxDate (s.y * 12 + (s.m - 1) + i) = monthEnd y m := by
      dsimp only [monthIdxDate, monthEnd] at hy hm3
      unfold monthIdxDate
      rw [hy, hm3]
    rw [hgi] at hle1 hle2
    exact ⟨hle1, hle2⟩

/-- C1 (amended): for valid dates, the surf plan contains exactly one
descriptor per calendar month whose month-end date lies in the inclusive
range [startDate, endDate] (so endDate's day-of-month decides whether its
month is covered), in chronological order, with no duplicate target paths. -/
theorem retrieve_era5_surf_plan_months (product : String) (s e : Date)
    (eraDir latN latS lonE lonW : String) (step : Nat) (plevels : Option (List Nat))
    (fs : String → Bool) (ans : String) (hs : s.Valid) (he : e.Valid) :
    (∀ y m, 1 ≤ m → m ≤ 12 →
        (retrieve_era5 product s e eraDir latN latS lonE lonW step "surf" plevels fs
            ans).plan.countP (fun dd => dd.year == y && dd.month == m) =
          if dateLeProp s (monthEnd y m) ∧ dateLeProp (monthEnd y m) e then 1 else 0) ∧
      List.Pairwise
        (fun d1 d2 => d1.year * 12 + d1.month < d2.year * 12 + d2.month)
        (retrieve_era5 product s e eraDir latN latS lonE lonW step "surf" plevels fs
          ans).plan ∧
      ((retrieve_era5 product s e eraDir latN latS lonE lonW step "surf" plevels fs
          ans).plan.map (fun dd => dd.target_file)).Nodup := by
  have hplan :
      (retrieve_era5 product s e eraDir latN latS lonE lonW step "surf" plevels fs
          ans).plan =
        (date_range_M s e).map
          (mkSurfDescriptor eraDir step (bboxStr latN latS lonE lonW) product fs) := by
    rw [retrieve_plan_eq, if_pos rfl]
  rw [hplan]
  refine ⟨?_, ?_, ?_⟩
  · intro y m hm1 hm2
    rw [List.countP_map]
    refine Eq.trans ?_ (date_range_M_countP s e hs he y m hm1 hm2)
    apply countP_congr_mine
    intro dt _
    rfl
  · rw [List.pairwise_map]
    refine (date_range_M_pairwise s e).imp ?_
    intro d1 d2 h12
    exact h12.1
  · rw [List.map_map]
    show List.Pairwise _ _
    rw [List.pairwise_map]
    refine (date_range_M_pairwise s e).imp ?_
    intro d1 d2 h12 heq
    have hteq : eraDir ++ "SURF_" ++ fmtYM d1.y d1.m ++ ".nc" =
        eraDir ++ "SURF_" ++ fmtYM d2.y d2.m ++ ".nc" := heq
    have := targetFile_inj eraDir "SURF_" d1.y d1.m d2.y d2.m
      (by omega) (by omega) hteq
    omega

/-- C1 counterexample: with startDate 2020-01-01, the claim as stated fails
for endDate 2020-03-30: March 2020 belongs to the inclusive span but gets no
descriptor, and moving endDate's day-of-month from 30 to 31 changes which
months are covered. -/
theorem retrieve_era5_span_day_cex :
    (retrieve_era5 "reanalysis" ⟨2020, 1, 1⟩ ⟨2020, 3, 30⟩ "d/" "60" "40" "10" "0" 6
        "surf" none (fun _ => false) "y").plan.map (fun dd => (dd.year, dd.month)) =
      [(2020, 1), (2020, 2)] ∧
      (retrieve_era5 "reanalysis" ⟨2020, 1, 1⟩ ⟨2020, 3, 31⟩ "d/" "60" "40" "10" "0" 6
          "surf" none (fun _ => false) "y").plan.map (fun dd => (dd.year, dd.month)) =
        [(2020, 1), (2020, 2), (2020, 3)] := by
  refine ⟨?_, ?_⟩ <;> decide

/-- Witness for C1 (amended) on the quarter 2020-01-01 .. 2020-03-31. -/
theorem retrieve_era5_surf_plan_months_witness :
    Date.Valid ⟨2020, 1, 1⟩ ∧ Date.Valid ⟨2020, 3, 31⟩ ∧
      ((∀ y m, 1 ≤ m → m ≤ 12 →
          (retrieve_era5 "reanalysis" ⟨2020, 1, 1⟩ ⟨2020, 3, 31⟩ "d/" "60" "40" "10"
              "0" 6 "surf" none (fun _ => false) "y").plan.countP
              (fun dd => dd.year == y && dd.month == m) =
            if dateLeProp ⟨2020, 1, 1⟩ (monthEnd y m) ∧
                dateLeProp (monthEnd y m) ⟨2020, 3, 31⟩ then 1 else 0) ∧
        List.Pairwise
          (fun d1 d2 => d1.year * 12 + d1.month < d2.year * 12 + d2.month)
          (retrieve_era5 "reanalysis" ⟨2020, 1, 1⟩ ⟨2020, 3, 31⟩ "d/" "60" "40" "10"
            "0" 6 "surf" none (fun _ => false) "y").plan ∧
        ((retrieve_era5 "reanalysis" ⟨2020, 1, 1⟩ ⟨2020, 3, 31⟩ "d/" "60" "40" "10"
            "0" 6 "surf" none (fun _ => false) "y").plan.map
            (fun dd => dd.target_file)).Nodup) :=
  ⟨by decide, by decide,
    retrieve_era5_surf_plan_months "reanalysis" ⟨2020, 1, 1⟩ ⟨2020, 3, 31⟩ "d/" "60"
      "40" "10" "0" 6 none (fun _ => false) "y" (by decide) (by decide)⟩

/-! ### C9: calendar-ordinal arithmetic for the daily range -/

theorem daysBeforeMonth_succ (y m : Nat) (h : 1 ≤ m) :
    daysBeforeMonth y (m + 1) = daysBeforeMonth y m + monthLength y m := by
  cases m with
  | zero => omega
  | succ k => rfl

theorem daysBeforeMonth_mono (y : Nat) : ∀ k m, m ≤ k →
    daysBeforeMonth y m ≤ daysBeforeMonth y k := by
  intro k
  induction k with
  | zero =>
      intro m h
      have h0 : m = 0 := by omega
      subst h0
      exact le_rfl
  | succ k ih =>
      intro m h
      by_cases hmk : m = k + 1
      · subst hmk
        exact le_rfl
      · have h2 := ih m (by omega)
        cases k with
        | zero =>
            have h0 : m = 0 := by omega
            subst h0
            exact le_rfl
        | succ k2 =>
            have hstep : daysBeforeMonth y (k2 + 1 + 1) =
                daysBeforeMonth y (k2 + 1) + monthLength y (k2 + 1) := rfl
            omega

theorem isLeap_iff (y : Nat) :
    isLeap y = true ↔ (y % 4 = 0 ∧ (y % 100 ≠ 0 ∨ y % 400 = 0)) := by
  unfold isLeap
  simp [Bool.and_eq_true, beq_iff_eq, Bool.or_eq_true, bne_iff_ne]

theorem daysInYear_eq (y : Nat) :
    daysBeforeMonth y 13 = 365 + (if isLeap y then 1 else 0) := by
  cases h : isLeap y <;> simp [daysBeforeMonth, monthLength, h]

set_option maxHeartbeats 1000000 in
theorem numLeapsBelow_succ (y : Nat) :
    numLeapsBelow (y + 1) = numLeapsBelow y + (if isLeap y then 1 else 0) := by
  have hiff := isLeap_iff y
  unfold numLeapsBelow
  by_cases hl : isLeap y = true
  · rw [if_pos hl]
    rw [hiff] at hl
    omega
  · rw [if_neg hl]
    rw [hiff] at hl
    omega

theorem yearStart_mono (y z : Nat) (h : y ≤ z) :
    365 * y + numLeapsBelow y ≤ 365 * z + numLeapsBelow z := by
  obtain ⟨k, rfl⟩ := Nat.exists_eq_add_of_le h
  induction k with
  | zero => exact le_rfl
  | succ k ih =>
      have hnl := numLeapsBelow_succ (y + k)
      have hle : 365 * (y + k) + numLeapsBelow (y + k) ≤
          365 * (y + k + 1) + numLeapsBelow (y + k + 1) := by
        by_cases hl : isLeap (y + k) = true <;> simp [hl] at hnl <;> omega
      have hgoal : y + (k + 1) = y + k + 1 := rfl
      rw [hgoal]
      exact le_trans (ih (by omega)) hle

theorem dayOfYear_lt (x : Date) (hx : x.Valid) :
    daysBeforeMonth x.y x.m + (x.d - 1) < daysBeforeMonth x.y 13 := by
  obtain ⟨h1, h2, h3, h4⟩ := hx
  have hstep := daysBeforeMonth_succ x.y x.m h1
  have hmono := daysBeforeMonth_mono x.y 13 (x.m + 1) (by omega)
  have hlen := monthLength_ge x.y x.m
  omega

theorem ord_lt_of_lt (a b : Date) (ha : a.Valid) (hb : b.Valid)
    (h : a.y < b.y ∨ (a.y = b.y ∧ (a.m < b.m ∨ (a.m = b.m ∧ a.d < b.d)))) :
    ord a < ord b := by
  obtain ⟨ya, ma, da⟩ := a
  obtain ⟨yb, mb, db⟩ := b
  obtain ⟨ha1, ha2, ha3, ha4⟩ := ha
  obtain ⟨hb1, hb2, hb3, hb4⟩ := hb
  dsimp only at h ha1 ha2 ha3 ha4 hb1 hb2 hb3 hb4
  unfold ord
  dsimp only
  rcases h with hy | ⟨hy, h⟩
  · have h1 : daysBeforeMonth ya ma + (da - 1) < daysBeforeMonth ya 13 := by
      have hstep := daysBeforeMonth_succ ya ma ha1
      have hmono := daysBeforeMonth_mono ya 13 (ma + 1) (by omega)
      have hlen := monthLength_ge ya ma
      omega
    have h2 := yearStart_mono (ya + 1) yb (by omega)
    have h3 := numLeapsBelow_succ ya
    have h4 := daysInYear_eq ya
    by_cases hl : isLeap ya = true <;> simp [hl] at h3 h4 <;> omega
  · subst hy
    rcases h with hm | ⟨hm, hd⟩
    · have hstep := daysBeforeMonth_succ ya ma ha1
      have hmono := daysBeforeMonth_mono ya mb (ma + 1) (by omega)
      omega
    · subst hm
      omega

theorem dateEq_of_fields (a b : Date) (h1 : a.y = b.y) (h2 : a.m = b.m)
    (h3 : a.d = b.d) : a = b := by
  obtain ⟨⟩ := a
  obtain ⟨⟩ := b
  simp_all

theorem ord_le_iff (a b : Date) (ha : a.Valid) (hb : b.Valid) :
    dateLeProp a b ↔ ord a ≤ ord b := by
  constructor
  · intro h
    by_cases heq : a = b
    · subst heq
      exact le_rfl
    · have hf : ¬(a.y = b.y ∧ a.m = b.m ∧ a.d = b.d) := by
        rintro ⟨e1, e2, e3⟩
        exact heq (dateEq_of_fields a b e1 e2 e3)
      refine le_of_lt (ord_lt_of_lt a b ha hb ?_)
      unfold dateLeProp at h
      omega
  · intro h
    by_contra hc
    have hlt : b.y < a.y ∨ (b.y = a.y ∧ (b.m < a.m ∨ (b.m = a.m ∧ b.d < a.d))) := by
      unfold dateLeProp at hc
      omega
    have := ord_lt_of_lt b a hb ha hlt
    omega

theorem nextDay_valid (x : Date) (hx : x.Valid) : (nextDay x).Valid := by
  obtain ⟨y, m, d⟩ := x
  obtain ⟨h1, h2, h3, h4⟩ := hx
  dsimp only at h1 h2 h3 h4
  unfold nextDay
  dsimp only
  split_ifs with hd hm
  · refine ⟨?_, ?_, ?_, ?_⟩ <;> dsimp only [Date.Valid] <;> omega
  · have := monthLength_ge y (m + 1)
    refine ⟨?_, ?_, ?_, ?_⟩ <;> dsimp only [Date.Valid] <;> omega
  · have := monthLength_ge (y + 1) 1
    refine ⟨?_, ?_, ?_, ?_⟩ <;> dsimp only [Date.Valid] <;> omega

theorem ord_nextDay (x : Date) (hx : x.Valid) : ord (nextDay x) = ord x + 1 := by
  obtain ⟨y, m, d⟩ := x
  obtain ⟨h1, h2, h3, h4⟩ := hx
  dsimp only at h1 h2 h3 h4
  unfold nextDay
  dsimp only
  split_ifs with hd hm
  · unfold ord
    dsimp only
    omega
  · unfold ord
    dsimp only
    have hstep := daysBeforeMonth_succ y m h1
    have hlen := monthLength_ge y m
    omega
  · have hm12 : m = 12 := by omega
    subst hm12
    unfold ord
    dsimp only
    have hnl := numLeapsBelow_succ y
    have hd13 := daysInYear_eq y
    have hstep : daysBeforeMonth y 13 =
        daysBeforeMonth y 12 + monthLength y 12 := rfl
    have hml12 : monthLength y 12 = 31 := rfl
    have hdb1 : daysBeforeMonth (y + 1) 1 = 0 := rfl
    by_cases hl : isLeap y = true <;> simp [hl] at hnl hd13 <;> omega

theorem dateLeProp_refl (a : Date) : dateLeProp a a := by
  unfold dateLeProp
  omega

theorem mem_dailyGo (e : Date) (he : e.Valid) :
    ∀ (fuel : Nat) (cur : Date), cur.Valid → ord e + 1 - ord cur ≤ fuel →
      ∀ x, (x ∈ dailyGo e fuel cur ↔ x.Valid ∧ dateLeProp cur x ∧ dateLeProp x e) := by
  intro fuel
  induction fuel with
  | zero =>
      intro cur hcur hf x
      show x ∈ ([] : List Date) ↔ _
      simp only [List.not_mem_nil, false_iff]
      rintro ⟨hxv, hl1, hl2⟩
      have ha := (ord_le_iff cur x hcur hxv).mp hl1
      have hb := (ord_le_iff x e hxv he).mp hl2
      omega
  | succ fuel ih =>
      intro cur hcur hf x
      show x ∈ (if dateLE cur e then cur :: dailyGo e fuel (nextDay cur) else []) ↔ _
      by_cases hce : dateLE cur e = true
      · rw [if_pos hce]
        have hcep : dateLeProp cur e := by simpa [dateLE] using hce
        have hnv := nextDay_valid cur hcur
        have hno := ord_nextDay cur hcur
        rw [List.mem_cons, ih (nextDay cur) hnv (by omega)]
        constructor
        · rintro (rfl | ⟨hxv, hl1, hl2⟩)
          · exact ⟨hcur, dateLeProp_refl x, hcep⟩
          · have h1o := (ord_le_iff (nextDay cur) x hnv hxv).mp hl1
            exact ⟨hxv, (ord_le_iff cur x hcur hxv).mpr (by omega), hl2⟩
        · rintro ⟨hxv, hl1, hl2⟩
          by_cases hxc : x = cur
          · exact Or.inl hxc
          · refine Or.inr ⟨hxv, ?_, hl2⟩
            have hf2 : ¬(cur.y = x.y ∧ cur.m = x.m ∧ cur.d = x.d) := by
              rintro ⟨e1, e2, e3⟩
              exact hxc (dateEq_of_fields x cur e1.symm e2.symm e3.symm)
            have hlt : ord cur < ord x := by
              apply ord_lt_of_lt cur x hcur hxv
              unfold dateLeProp at hl1
              omega
            exact (ord_le_iff (nextDay cur) x hnv hxv).mpr (by omega)
      · rw [if_neg hce]
        have hcep : ¬ dateLeProp cur e := by simpa [dateLE] using hce
        simp only [List.not_mem_nil, false_iff]
        rintro ⟨hxv, hl1, hl2⟩
        have ha := (ord_le_iff cur x hcur hxv).mp hl1
        have hb := (ord_le_iff x e hxv he).mp hl2
        exact hcep ((ord_le_iff cur e hcur he).mpr (by omega))

theorem mem_insertSD (x z : Nat) (l : List Nat) :
    z ∈ insertSD x l ↔ z = x ∨ z ∈ l := by
  induction l with
  | nil => simp [insertSD]
  | cons a t ih =>
      unfold insertSD
      split_ifs with h1 h2
      · simp only [List.mem_cons]
      · subst h2
        simp only [List.mem_cons]
        tauto
      · simp only [List.mem_cons, ih]
        tauto

theorem pairwise_insertSD (x : Nat) (l : List Nat)
    (h : List.Pairwise (· < ·) l) :
    List.Pairwise (· < ·) (insertSD x l) := by
  induction l with
  | nil => simp [insertSD]
  | cons a t ih =>
      rw [List.pairwise_cons] at h
      obtain ⟨ha, ht⟩ := h
      unfold insertSD
      split_ifs with h1 h2
      · rw [List.pairwise_cons]
        constructor
        · intro b hb
          rw [List.mem_cons] at hb
          rcases hb with rfl | hb
          · exact h1
          · exact lt_trans h1 (ha b hb)
        · rw [List.pairwise_cons]
          exact ⟨ha, ht⟩
      · rw [List.pairwise_cons]
        exact ⟨ha, ht⟩
      · rw [List.pairwise_cons]
        constructor
        · intro b hb
          rw [mem_insertSD] at hb
          rcases hb with rfl | hb
          · omega
          · exact ha b hb
        · exact ih ht

theorem mem_sortDedup (l : List Nat) (z : Nat) : z ∈ sortDedup l ↔ z ∈ l := by
  induction l with
  | nil => exact Iff.rfl
  | cons a t ih =>
      show z ∈ insertSD a (sortDedup t) ↔ _
      rw [mem_insertSD, List.mem_cons, ih]

theorem pairwise_sortDedup (l : List Nat) :
    List.Pairwise (· < ·) (sortDedup l) := by
  induction l with
  | nil => exact List.Pairwise.nil
  | cons a t ih => exact pairwise_insertSD a _ ih

theorem sorted_lt_eq_of_mem_iff :
    ∀ (l1 l2 : List Nat), List.Pairwise (· < ·) l1 → List.Pairwise (· < ·) l2 →
      (∀ z, z ∈ l1 ↔ z ∈ l2) → l1 = l2 := by
  intro l1
  induction l1 with
  | nil =>
      intro l2 _ _ hmem
      cases l2 with
      | nil => rfl
      | cons b t2 =>
          exact absurd ((hmem b).mpr (List.mem_cons_self b t2)) (List.not_mem_nil b)
  | cons a t1 ih =>
      intro l2 h1 h2 hmem
      cases l2 with
      | nil => exact absurd ((hmem a).mp (List.mem_cons_self a t1)) (List.not_mem_nil a)
      | cons b t2 =>
          rw [List.pairwise_cons] at h1 h2
          obtain ⟨ha1, ht1⟩ := h1
          obtain ⟨hb2, ht2⟩ := h2
          have hab : a = b := by
            have hma : a ∈ b :: t2 := (hmem a).mp (List.mem_cons_self a t1)
            have hmb : b ∈ a :: t1 := (hmem b).mpr (List.mem_cons_self b t2)
            rw [List.mem_cons] at hma hmb
            rcases hma with h | h
            · exact h
            · rcases hmb with h' | h'
              · exact h'.symm
              · have hx := hb2 a h
                have hy := ha1 b h'
                omega
          subst hab
          congr 1
          apply ih t2 ht1 ht2
          intro z
          constructor
          · intro hz
            have hz2 : z ∈ a :: t2 := (hmem z).mp (List.mem_cons_of_mem a hz)
            rw [List.mem_cons] at hz2
            rcases hz2 with rfl | hz2
            · exact absurd (ha1 z hz) (lt_irrefl z)
            · exact hz2
          · intro hz
            have hz1 : z ∈ a :: t1 := (hmem z).mpr (List.mem_cons_of_mem a hz)
            rw [List.mem_cons] at hz1
            rcases hz1 with rfl | hz1
            · exact absurd (hb2 z hz) (lt_irrefl z)
            · exact hz1

theorem mem_range_add (k s0 z : Nat) :
    z ∈ (List.range k).map (fun i => s0 + i) ↔ s0 ≤ z ∧ z < s0 + k := by
  simp only [List.mem_map, List.mem_range]
  constructor
  · rintro ⟨i, hi, rfl⟩
    omega
  · rintro ⟨hc1, hc2⟩
    exact ⟨z - s0, by omega, by omega⟩

theorem pairwise_range_add (k s0 : Nat) :
    List.Pairwise (· < ·) ((List.range k).map (fun i => s0 + i)) := by
  rw [List.pairwise_map]
  refine (List.pairwise_lt_range _).imp ?_
  intro i j hij
  omega

theorem dateLeProp_trans (a b c : Date) (h1 : dateLeProp a b) (h2 : dateLeProp b c) :
    dateLeProp a c := by
  unfold dateLeProp at *
  omega

theorem subOneMonth_valid (x : Date) (hx : x.Valid) : (subOneMonth x).Valid := by
  obtain ⟨y, m, d⟩ := x
  obtain ⟨h1, h2, h3, h4⟩ := hx
  dsimp only at h1 h2 h3 h4
  unfold subOneMonth
  dsimp only
  split_ifs with hm
  · have := monthLength_ge (y - 1) 12
    refine ⟨?_, ?_, ?_, ?_⟩ <;> dsimp only [Date.Valid] <;> omega
  · have := monthLength_ge y (m - 1)
    refine ⟨?_, ?_, ?_, ?_⟩ <;> dsimp only [Date.Valid] <;> omega

theorem addOneMonth_valid (x : Date) (hx : x.Valid) : (addOneMonth x).Valid := by
  obtain ⟨y, m, d⟩ := x
  obtain ⟨h1, h2, h3, h4⟩ := hx
  dsimp only at h1 h2 h3 h4
  unfold addOneMonth
  dsimp only
  split_ifs with hm
  · have := monthLength_ge (y + 1) 1
    refine ⟨?_, ?_, ?_, ?_⟩ <;> dsimp only [Date.Valid] <;> omega
  · have := monthLength_ge y (m + 1)
    refine ⟨?_, ?_, ?_, ?_⟩ <;> dsimp only [Date.Valid] <;> omega

theorem subOneMonth_le (x : Date) (hx : x.Valid) (hy : 1 ≤ x.y) :
    dateLeProp (subOneMonth x) x := by
  obtain ⟨y, m, d⟩ := x
  obtain ⟨h1, h2, h3, h4⟩ := hx
  dsimp only at h1 h2 h3 h4 hy
  unfold subOneMonth dateLeProp
  dsimp only
  split_ifs with hm <;> dsimp only <;> omega

theorem le_addOneMonth (x : Date) (hx : x.Valid) :
    dateLeProp x (addOneMonth x) := by
  obtain ⟨y, m, d⟩ := x
  obtain ⟨h1, h2, h3, h4⟩ := hx
  dsimp only at h1 h2 h3 h4
  unfold addOneMonth dateLeProp
  dsimp only
  split_ifs with hm <;> dsimp only <;> omega

theorem years_of_range_D (s e : Date) (hs : s.Valid) (he : e.Valid)
    (hse : dateLeProp s e) (z : Nat) :
    z ∈ (date_range_D s e).map (fun dt => dt.y) ↔ s.y ≤ z ∧ z ≤ e.y := by
  unfold date_range_D
  rw [List.mem_map]
  constructor
  · rintro ⟨x, hx, rfl⟩
    rw [mem_dailyGo e he _ s hs le_rfl] at hx
    obtain ⟨hxv, hl1, hl2⟩ := hx
    unfold dateLeProp at hl1 hl2
    omega
  · rintro ⟨hc1, hc2⟩
    by_cases hz : z = s.y
    · refine ⟨s, ?_, hz.symm⟩
      rw [mem_dailyGo e he _ s hs le_rfl]
      exact ⟨hs, dateLeProp_refl s, hse⟩
    · refine ⟨⟨z, 1, 1⟩, ?_, rfl⟩
      rw [mem_dailyGo e he _ s hs le_rfl]
      refine ⟨?_, ?_, ?_⟩
      · have := monthLength_ge z 1
        refine ⟨le_rfl, ?_, le_rfl, ?_⟩ <;> dsimp only [Date.Valid] <;> omega
      · unfold dateLeProp
        dsimp only
        omega
      · have he1 : 1 ≤ e.m := he.1
        have he3 : 1 ≤ e.d := he.2.2.1
        unfold dateLeProp
        dsimp only
        omega

/-- C9: `retrieve_era5_tpmm` expands the range by one month on each side,
issues exactly one unconditional request (the function's output is a single
request; it consults no filesystem and prompts for nothing), whose year list
is the sorted distinct set of calendar years of the expanded range — i.e.
every year from (startDate - 1 month).year to (endDate + 1 month).year —
whose month list is all 12 months, and whose target is eraDir ++ "tpmm.nc". -/
theorem retrieve_era5_tpmm_single_request (s e : Date)
    (eraDir latN latS lonE lonW : String)
    (hs : s.Valid) (he : e.Valid) (hse : dateLeProp s e) (hy : 1 ≤ s.y) :
    (retrieve_era5_tpmm s e eraDir latN latS lonE lonW).years =
        (List.range ((addOneMonth e).y + 1 - (subOneMonth s).y)).map
          (fun i => (subOneMonth s).y + i) ∧
      (retrieve_era5_tpmm s e eraDir latN latS lonE lonW).target =
        eraDir ++ "tpmm.nc" ∧
      (retrieve_era5_tpmm s e eraDir latN latS lonE lonW).months =
        ["01", "02", "03", "04", "05", "06",
         "07", "08", "09", "10", "11", "12"] ∧
      (retrieve_era5_tpmm s e eraDir latN latS lonE lonW).product_type =
        "reanalysis-monthly-means-of-daily-means" ∧
      (retrieve_era5_tpmm s e eraDir latN latS lonE lonW).time = "00:00" := by
  refine ⟨?_, rfl, rfl, rfl, rfl⟩
  have hs2 : (subOneMonth s).Valid := subOneMonth_valid s hs
  have he2 : (addOneMonth e).Valid := addOneMonth_valid e he
  have hse2 : dateLeProp (subOneMonth s) (addOneMonth e) :=
    dateLeProp_trans _ s _ (subOneMonth_le s hs hy)
      (dateLeProp_trans s e _ hse (le_addOneMonth e he))
  have hyy : (subOneMonth s).y ≤ (addOneMonth e).y := by
    unfold dateLeProp at hse2
    omega
  show sortDedup
      ((date_range_D (subOneMonth s) (addOneMonth e)).map (fun dt => dt.y)) = _
  apply sorted_lt_eq_of_mem_iff
  · exact pairwise_sortDedup _
  · exact pairwise_range_add _ _
  · intro z
    rw [mem_sortDedup, years_of_range_D _ _ hs2 he2 hse2, mem_range_add]
    omega

/-- Witness for C9 on the range 2020-05-15 .. 2020-08-10 (expanded:
2020-04-15 .. 2020-09-10, a single year). -/
theorem retrieve_era5_tpmm_single_request_witness :
    Date.Valid ⟨2020, 5, 15⟩ ∧ Date.Valid ⟨2020, 8, 10⟩ ∧
      dateLeProp ⟨2020, 5, 15⟩ ⟨2020, 8, 10⟩ ∧ 1 ≤ (2020 : Nat) ∧
      ((retrieve_era5_tpmm ⟨2020, 5, 15⟩ ⟨2020, 8, 10⟩ "d/" "60" "40" "10" "0").years =
          (List.range ((addOneMonth ⟨2020, 8, 10⟩).y + 1 -
              (subOneMonth ⟨2020, 5, 15⟩).y)).map
            (fun i => (subOneMonth ⟨2020, 5, 15⟩).y + i) ∧
        (retrieve_era5_tpmm ⟨2020, 5, 15⟩ ⟨2020, 8, 10⟩ "d/" "60" "40" "10" "0").target =
          "d/" ++ "tpmm.nc" ∧
        (retrieve_era5_tpmm ⟨2020, 5, 15⟩ ⟨2020, 8, 10⟩ "d/" "60" "40" "10" "0").months =
          ["01", "02", "03", "04", "05", "06",
           "07", "08", "09", "10", "11", "12"] ∧
        (retrieve_era5_tpmm ⟨2020, 5, 15⟩ ⟨2020, 8, 10⟩ "d/" "60" "40" "10"
            "0").product_type = "reanalysis-monthly-means-of-daily-means" ∧
        (retrieve_era5_tpmm ⟨2020, 5, 15⟩ ⟨2020, 8, 10⟩ "d/" "60" "40" "10" "0").time =
          "00:00") :=
  ⟨by decide, by decide, by decide, by decide,
    retrieve_era5_tpmm_single_request ⟨2020, 5, 15⟩ ⟨2020, 8, 10⟩ "d/" "60" "40" "10"
      "0" (by decide) (by decide) (by decide) (by decide)⟩
